import Mathlib

/-!
Shallow embedding of `src/analyze.py` from the `pilot-analysis` repository.

The script walks a directory tree `<root>/<patient>/SyncForScience/<snapshot>/`,
reads a `log.json` manifest in every snapshot subdirectory, opens the resource
files it names whose fetch status is exactly 200, counts unique resource ids
per file type, and computes per-type summary statistics (mean, a positional
median, min, max, and a fixed-width histogram with empty bins skipped).

JSON objects are embedded as structures whose fields are `Option`s: a `none`
field models a missing key.  A Python `KeyError` on a missing key is modelled
by the branch taken for `none`.  Exceptions that the source catches are
modelled by the documented fallback behaviour; exceptions that escape a
function are modelled by `Except.error ()` (the run crashes, producing no
output, so the error value carries no data).
-/

/-- A FHIR resource as far as `analyze.py` reads it: only the `resourceType`
and `id` keys are ever accessed; `none` models a missing key. -/
structure Resource where
  resourceType : Option String
  id : Option String
deriving DecidableEq, Repr

/-- One element of a bundle document `entry` array.  `analyze.py` accesses only
`entry["resource"]`.  A missing `resource` key raises an uncaught `KeyError`
in `process_directory`, which the processing functions model as an error. -/
structure Entry where
  resource : Option Resource
deriving DecidableEq, Repr

/-- A parsed resource file, a JSON object.  `analyze.py` reads only the
`entry` key; a missing `entry` key is replaced by the empty list
(`data["entry"] = list()`). -/
structure Document where
  entry : Option (List Entry)
deriving DecidableEq, Repr

/-- Content of one resource file on disk.  `invalid` is a file that
`json.load` rejects (`ValueError`, caught and skipped in `process_directory`);
`nonObject` is a file that parses as JSON but is not an object (for example
`null`), on which `"entry" not in data` raises an uncaught `TypeError`. -/
inductive FileContent where
  | invalid
  | nonObject
  | parsed (d : Document)
deriving DecidableEq, Repr

/-- One element of the manifest `query` array: the request path, the produced
filename and the HTTP status code, each possibly missing. -/
structure Query where
  request : Option String
  response : Option String
  status : Option Int
deriving DecidableEq, Repr

/-- A parsed `log.json` manifest.  `analyze.py` reads only the `query` key;
`source` is written by the fetcher and never read, and no timestamp-like key
is ever read by `analyze.py`, so `timestamp` here records a key that the
analysis ignores entirely. -/
structure Manifest where
  source : Option String
  timestamp : Option Int
  query : Option (List Query)
deriving DecidableEq, Repr

/-- State of the `log.json` file of one snapshot subdirectory.  `missing`
raises `IOError` (caught), `invalid` raises `ValueError` from `json.load`
(caught), `nonObject` parses as JSON but is not an object so that
`log_data["query"]` raises an uncaught `TypeError`. -/
inductive LogContent where
  | missing
  | invalid
  | nonObject
  | parsed (m : Manifest)
deriving DecidableEq, Repr

/-- One snapshot subdirectory of a patient `SyncForScience` directory: its
`log.json` and its resource files, keyed by filename. -/
structure Snapshot where
  log : LogContent
  files : List (String × FileContent)
deriving DecidableEq, Repr

/-- The `FILE_TYPE_MAPPING` table of `analyze.py`, verbatim. -/
def FILE_TYPE_MAPPING : List (String × String) :=
  [("ALLERGY_INTOLERANCE", "AllergyIntolerance"),
   ("DOCUMENT", "DocumentReference"),
   ("IMMUNIZATION", "Immunization"),
   ("LAB", "Observation"),
   ("MEDICATION_ADMINISTRATION", "MedicationAdministration"),
   ("MEDICATION_DISPENSE", "MedicationDispense"),
   ("MEDICATION_ORDER", "MedicationOrder"),
   ("MEDICATION_STATEMENT", "MedicationStatement"),
   ("PATIENT_DEMOGRAPHICS", "Patient"),
   ("PROBLEMS", "Condition"),
   ("PROCEDURE", "Procedure"),
   ("SMOKING_STATUS", "Observation"),
   ("VITAL", "Observation")]

/-- `FILE_TYPE_MAPPING[type_]` as a partial lookup: `none` models the
`KeyError` raised on an unknown file type. -/
def lookupType (t : String) : Option String :=
  FILE_TYPE_MAPPING.lookup t

/-- `filename[:filename.index(".")]`: the characters of the filename up to the
first period.  `none` models the `ValueError` raised by `index` when the
filename contains no period. -/
def typeFromFilename (filename : String) : Option String :=
  let cs := filename.toList
  if cs.contains '.' then some (String.mk (cs.takeWhile (fun c => c != '.'))) else none

/-- Semantics of `re.match(BASE_URI_TEMPLATE.format(canonical), request)`
followed by `m.group("base_uri")`, where `BASE_URI_TEMPLATE` is
`(?P<base_uri>.*/)CANON(/[A-Za-z0-9-.]segment)?(optional query)?` and the
mapping values contain no regex metacharacters.  Both trailing groups are
optional and `re.match` anchors only at the start, so a match exists exactly
when the request has a newline-free prefix of some length `p` that ends in a
slash and is followed immediately by the canonical resource type name; the
greedy `.*` makes the captured `base_uri` the longest such prefix.  `none`
models a failed match, on which `m.group` raises an uncaught
`AttributeError`. -/
def matchBaseUri (canonical : String) (request : String) : Option String :=
  let cs := request.toList
  let ps := (List.range (cs.length + 1)).filter (fun p =>
    decide (1 ≤ p) && ((cs.take p).getLast? == some '/') &&
    !((cs.take p).contains '\n') && canonical.toList.isPrefixOf (cs.drop p))
  ps.getLast?.map (fun p => String.mk (cs.take p))

/-- One item yielded by `find_resource_files`: the file type, the content of
the file at the yielded path (`none` when no such file exists, so that the
later `open` raises an uncaught `IOError`), and the captured base URI. -/
abbrev Yield := String × Option FileContent × String

/-- The body of the `for query in log_data["query"]` loop of
`find_resource_files` over one snapshot.  Returns the yielded items and a
flag that is `true` when the loop raises an uncaught `AttributeError`
(`re.match` returned `None`).  A missing `status`, `response` or `request`
key (`KeyError`), a filename without a period (`ValueError`) and an unknown
file type (`KeyError`) are all caught by the enclosing
`except (IOError, ValueError, KeyError)` and end the snapshot, keeping the
items already yielded. -/
def processQueries (files : List (String × FileContent)) :
    List Query → List Yield × Bool
  | [] => ([], false)
  | q :: qs =>
    match q.status with
    | none => ([], false)
    | some s =>
      if s ≠ 200 then processQueries files qs
      else
        match q.response with
        | none => ([], false)
        | some filename =>
          match typeFromFilename filename with
          | none => ([], false)
          | some t =>
            match lookupType t with
            | none => ([], false)
            | some canonical =>
              match q.request with
              | none => ([], false)
              | some req =>
                match matchBaseUri canonical req with
                | none => ([], true)
                | some baseUri =>
                  let rest := processQueries files qs
                  ((t, files.lookup filename, baseUri) :: rest.1, rest.2)

/-- The yields of `find_resource_files` for one snapshot subdirectory: a
missing, unparsable or non-object `log.json` and a missing `query` key are
absorbed (the snapshot yields nothing); the flag marks an uncaught
`AttributeError` from a failed base-URI match. -/
def snapshotYields (snap : Snapshot) : List Yield × Bool :=
  match snap.log with
  | .missing => ([], false)
  | .invalid => ([], false)
  | .nonObject => ([], true)
  | .parsed m =>
    match m.query with
    | none => ([], false)
    | some qs => processQueries snap.files qs

/-- `find_resource_files(directory)`: iterate over every snapshot
subdirectory, concatenating the yields.  An uncaught exception anywhere makes
the whole run crash with no output, modelled as `Except.error ()`. -/
def findResourceFiles : List Snapshot → Except Unit (List Yield)
  | [] => .ok []
  | snap :: rest =>
    let r := snapshotYields snap
    if r.2 then .error ()
    else (findResourceFiles rest).map (fun ys => r.1 ++ ys)

/-- `if not base_uri: base_uri = resource_base_uri` with Python truthiness:
`None` and the empty string are both falsy. -/
def updateBase (base : Option String) (uri : String) : Option String :=
  match base with
  | none => some uri
  | some s => if s = "" then some uri else some s

/-- Contribution of one bundle entry to the id set, following the generator
`entry["resource"]["id"] for entry in data["entry"] if
entry["resource"]["resourceType"] == FILE_TYPE_MAPPING[type_]` of
`process_directory`.  Key accesses happen in source order; each `none` models
an uncaught `KeyError`.  `ok none` is an entry filtered out because its
resource type differs from the canonical type of the file. -/
def entryContrib (t : String) (e : Entry) : Except Unit (Option String) :=
  match e.resource with
  | none => .error ()
  | some r =>
    match r.resourceType with
    | none => .error ()
    | some rt =>
      match lookupType t with
      | none => .error ()
      | some canonical =>
        if rt = canonical then
          match r.id with
          | none => .error ()
          | some i => .ok (some i)
        else .ok none

/-- The ids produced by the generator over a whole `entry` list, in order. -/
def entriesIds (t : String) : List Entry → Except Unit (List String)
  | [] => .ok []
  | e :: es =>
    match entryContrib t e with
    | .error u => .error u
    | .ok none => entriesIds t es
    | .ok (some i) => (entriesIds t es).map (fun is => i :: is)

/-- The running `uniques` map of `process_directory`, a
`defaultdict(set)` in insertion order. -/
abbrev Uniques := List (String × Finset String)

/-- `uniques[type_].update(ids)`: the key is created with the empty set when
absent (`defaultdict` semantics), then the id set is unioned in.  The key is
created even when `ids` is empty. -/
def updateUniques : Uniques → String → Finset String → Uniques
  | [], k, s => [(k, s)]
  | (k', v) :: rest, k, s =>
    if k' = k then (k', v ∪ s) :: rest else (k', v) :: updateUniques rest k s

/-- The per-patient output of `process_directory`: the base URI and the map
from file type to number of unique ids. -/
abbrev CountMap := List (String × Nat)

/-- The `for type_, path, resource_base_uri in find_resource_files(...)` loop
of `process_directory` over the yielded items.  A `PATIENT_DEMOGRAPHICS` item
is skipped; a missing file raises an uncaught `IOError`; an unparsable file is
skipped (`except ValueError`); a non-object JSON document raises an uncaught
`TypeError`; a `KeyError` inside the id generator is uncaught.  On success the
result maps every touched file type to the cardinality of its id set. -/
def processFiles : List Yield → Uniques → Option String →
    Except Unit (Option String × CountMap)
  | [], uniques, base => .ok (base, uniques.map (fun p => (p.1, p.2.card)))
  | (t, file, uri) :: rest, uniques, base =>
    let base' := updateBase base uri
    if t = "PATIENT_DEMOGRAPHICS" then processFiles rest uniques base'
    else
      match file with
      | none => .error ()
      | some .invalid => processFiles rest uniques base'
      | some .nonObject => .error ()
      | some (.parsed d) =>
        match entriesIds t (d.entry.getD []) with
        | .error u => .error u
        | .ok ids => processFiles rest (updateUniques uniques t ids.toFinset) base'

/-- `process_directory`: run `find_resource_files` over the snapshot
subdirectories and fold the yielded files into the uniques map.  The source
interleaves the two lazily; since every uncaught exception kills the whole
run before any output, sequencing them is observationally equal. -/
def processDirectory (dir : List Snapshot) : Except Unit (Option String × CountMap) :=
  (findResourceFiles dir).bind (fun ys => processFiles ys [] none)

/-- The `total_counts` accumulator of `main`: base URI, then file type, then
the list of per-patient counts in patient order. -/
abbrev Totals := List (Option String × List (String × List Nat))

/-- Append `c` to the count list of type `t`, creating the entry when absent
(`defaultdict(list)` semantics). -/
def appendCount : List (String × List Nat) → String → Nat → List (String × List Nat)
  | [], t, c => [(t, [c])]
  | (t', l) :: rest, t, c =>
    if t' = t then (t', l ++ [c]) :: rest else (t', l) :: appendCount rest t c

/-- `total_counts[base_uri][type_].append(count)` for one item. -/
def updateTotals1 : Totals → Option String → String → Nat → Totals
  | [], b, t, c => [(b, [(t, [c])])]
  | (b', colls) :: rest, b, t, c =>
    if b' = b then (b', appendCount colls t c) :: rest
    else (b', colls) :: updateTotals1 rest b t c

/-- The `for type_, count in dir_counts.items(): ...append(count)` loop of
`main` for one patient. -/
def addPatient (totals : Totals) (b : Option String) (items : CountMap) : Totals :=
  items.foldl (fun acc p => updateTotals1 acc b p.1 p.2) totals

/-- The aggregation loop of `main` over all patient `SyncForScience`
directories, in glob order. -/
def collectCountsAux (totals : Totals) : List (List Snapshot) → Except Unit Totals
  | [] => .ok totals
  | dir :: rest =>
    (processDirectory dir).bind (fun r => collectCountsAux (addPatient totals r.1 r.2) rest)

/-- The fully accumulated `total_counts` of `main`. -/
def collectCounts (patients : List (List Snapshot)) : Except Unit Totals :=
  collectCountsAux [] patients

/-- One emitted histogram bin, with inclusive `bin_end`. -/
structure Bin where
  bin_start : Int
  bin_end : Int
  count : Nat
deriving DecidableEq, Repr

/-- `sum(b * bin_size <= x < (b + 1) * bin_size for x in counts)`: the number
of collection values falling in bin `b`. -/
def inBin (counts : List Nat) (w : Int) (b : Nat) : Nat :=
  (counts.filter (fun (x : Nat) =>
    decide ((b : Int) * w ≤ (x : Int)) && decide ((x : Int) < ((b : Int) + 1) * w))).length

/-- The `while True` histogram loop of `main`, with explicit fuel: `none`
means the fuel ran out before the loop broke.  `mx` is `counts[-1]`, read on
the sorted collection.  An empty bin is skipped without being emitted; a
non-empty bin is emitted and the loop breaks once the bin end passes the
maximum. -/
def histLoop (counts : List Nat) (w mx : Int) : Nat → Nat → List Bin → Option (List Bin)
  | 0, _, _ => none
  | fuel + 1, b, acc =>
    let n := inBin counts w b
    if n = 0 then histLoop counts w mx fuel (b + 1) acc
    else
      let acc' := acc ++ [⟨(b : Int) * w, ((b : Int) + 1) * w - 1, n⟩]
      if ((b : Int) + 1) * w > mx then some acc'
      else histLoop counts w mx fuel (b + 1) acc'

/-- The bins the loop emits while scanning bin indices `lo, lo+1, ...` for
`k` steps: exactly the non-empty ones, in order. -/
def binsIn (counts : List Nat) (w : Int) (lo : Nat) : Nat → List Bin
  | 0 => []
  | k + 1 =>
    (if inBin counts w lo = 0 then []
     else [⟨(lo : Int) * w, ((lo : Int) + 1) * w - 1, inBin counts w lo⟩])
      ++ binsIn counts w (lo + 1) k

/-- The per-type `summary` dictionary of `main`.  Python computes `mean` in
floating point; it is embedded exactly as a rational. -/
structure Summary where
  mean : Rat
  median : Nat
  min : Nat
  max : Nat
  histogram : List Bin
deriving DecidableEq, Repr

/-- Lines 162-191 of `analyze.py`: sort the counts, read `counts[0]`,
`counts[-1]` and `counts[n // 2]`, and run the histogram loop.  `none` models
the `IndexError` a (by construction impossible) empty collection would raise,
or the fuel running out. -/
def summarize (counts : List Nat) (w : Int) (fuel : Nat) : Option Summary :=
  let s := counts.insertionSort (· ≤ ·)
  if s.isEmpty then none
  else
    match histLoop s w ((s.getLastD 0 : Nat) : Int) fuel 0 [] with
    | none => none
    | some bins =>
      some { mean := (s.sum : Rat) / (s.length : Rat)
             median := s.getD (s.length / 2) 0
             min := s.headD 0
             max := s.getLastD 0
             histogram := bins }

/-! ### Concrete fixtures used by witnesses and counterexamples -/

/-- A bundle entry wrapping an `Observation` resource with the given id. -/
def obsEntry (i : String) : Entry := ⟨some ⟨some "Observation", some i⟩⟩

/-- A successful log entry for a `LAB.json` fetch. -/
def qLab : Query :=
  { request := some "http://srv/Observation?category=laboratory&subject=Patient/1"
    response := some "LAB.json"
    status := some 200 }

/-- A successful log entry for a `VITAL.json` fetch. -/
def qVital : Query :=
  { request := some "http://srv/Observation?category=vital-signs&subject=Patient/1"
    response := some "VITAL.json"
    status := some 200 }

/-- A snapshot holding a `LAB` file and a `VITAL` file, both bundle-shaped and
both containing the single Observation id `x`. -/
def labVitalSnap : Snapshot :=
  { log := .parsed { source := some "HAPI FHIR", timestamp := none, query := some [qLab, qVital] }
    files := [("LAB.json", .parsed ⟨some [obsEntry "x"]⟩),
              ("VITAL.json", .parsed ⟨some [obsEntry "x"]⟩)] }

/-- A successful log entry for an `IMMUNIZATION.json` fetch. -/
def qImmun : Query :=
  { request := some "http://srv/Immunization?patient=Patient/1"
    response := some "IMMUNIZATION.json"
    status := some 200 }

/-- A snapshot whose manifest carries the given (ignored) timestamp and whose
single resource file is an `IMMUNIZATION` bundle with one entry of id `rid`. -/
def immunSnap (ts : Option Int) (rid : String) : Snapshot :=
  { log := .parsed { source := some "HAPI FHIR", timestamp := ts, query := some [qImmun] }
    files := [("IMMUNIZATION.json",
      .parsed ⟨some [⟨some ⟨some "Immunization", some rid⟩⟩]⟩)] }

/-- A snapshot whose `LAB` file has an entry that matches the canonical
resource type `Observation` but carries no `id` key. -/
def noIdSnap : Snapshot :=
  { log := .parsed { source := some "HAPI FHIR", timestamp := none, query := some [qLab] }
    files := [("LAB.json", .parsed ⟨some [⟨some ⟨some "Observation", none⟩⟩]⟩)] }

/-- A log entry whose fetch failed with HTTP status 500. -/
def q500 : Query :=
  { request := some "http://srv/Observation?category=laboratory&subject=Patient/1"
    response := some "LAB.json"
    status := some 500 }

/-! ### Lemmas about the id generator -/

theorem entriesIds_append (t : String) (a b : List Entry) :
    entriesIds t (a ++ b)
      = (entriesIds t a).bind (fun xs => (entriesIds t b).map (fun ys => xs ++ ys)) := by
  induction a with
  | nil =>
    simp only [List.nil_append, entriesIds]
    cases entriesIds t b <;> simp [Except.bind, Except.map]
  | cons e es ih =>
    simp only [List.cons_append, entriesIds, List.append_eq]
    cases h : entryContrib t e with
    | error u => simp [Except.bind]
    | ok o =>
      cases o with
      | none => simpa using ih
      | some i =>
        rw [ih]
        cases he : entriesIds t es <;> cases hb : entriesIds t b <;>
          simp [Except.bind, Except.map]

theorem toFinset_card_dup (ls rs ss : List String) (i : String) :
    (ls ++ i :: (rs ++ i :: ss)).toFinset.card
      = (ls ++ i :: (rs ++ ss)).toFinset.card := by
  congr 1
  ext x
  simp only [List.mem_toFinset, List.mem_append, List.mem_cons]
  tauto

/-- C8: processing a bundle-shaped file whose `entry` sequence yields the same
record identifier twice produces the same count as processing it with that
identifier appearing once: the count is the cardinality of the id set built by
`process_directory`, so duplicate entries are idempotent. -/
theorem duplicate_identifier_idempotent (t : String) (l r s : List Entry)
    (e₁ e₂ : Entry) (i : String)
    (h₁ : entryContrib t e₁ = .ok (some i)) (h₂ : entryContrib t e₂ = .ok (some i)) :
    (entriesIds t (l ++ e₁ :: (r ++ e₂ :: s))).map (fun ids => ids.toFinset.card)
      = (entriesIds t (l ++ e₁ :: (r ++ s))).map (fun ids => ids.toFinset.card) := by
  rw [entriesIds_append, entriesIds_append]
  cases hl : entriesIds t l with
  | error u => rfl
  | ok ls =>
    simp only [Except.bind, entriesIds, h₁]
    rw [entriesIds_append, entriesIds_append]
    cases hr : entriesIds t r with
    | error u => rfl
    | ok rs =>
      simp only [Except.bind, entriesIds, h₂]
      cases hs : entriesIds t s with
      | error u => rfl
      | ok ss =>
        simp only [Except.map]
        rw [toFinset_card_dup ls rs ss i]

/-- Witness for `duplicate_identifier_idempotent` at a concrete `LAB` bundle
holding the id `x` twice versus once. -/
theorem duplicate_identifier_idempotent_witness :
    (entriesIds "LAB" ([] ++ obsEntry "x" :: ([] ++ obsEntry "x" :: []))).map
        (fun ids => ids.toFinset.card)
      = (entriesIds "LAB" ([] ++ obsEntry "x" :: ([] ++ []))).map
        (fun ids => ids.toFinset.card) :=
  duplicate_identifier_idempotent "LAB" [] [] [] (obsEntry "x") (obsEntry "x") "x" rfl rfl

/-! ### C9: only status-200 log entries are processed -/

/-- C9: a log entry whose `status` differs from 200 is skipped by
`find_resource_files`: removing it from the `query` list leaves the yielded
items (and the crash flag) of the snapshot unchanged, so the corresponding
file is never yielded to the extractor and contributes no count. -/
theorem non200_entry_never_yielded (files : List (String × FileContent))
    (qs₁ qs₂ : List Query) (q : Query) (s : Int)
    (hs : q.status = some s) (h200 : s ≠ 200) :
    processQueries files (qs₁ ++ q :: qs₂) = processQueries files (qs₁ ++ qs₂) := by
  induction qs₁ with
  | nil =>
    simp only [List.nil_append, processQueries, hs]
    rw [if_pos h200]
  | cons q' rest ih =>
    simp only [List.cons_append, processQueries, List.append_eq, ih]

/-- Witness for `non200_entry_never_yielded`: a snapshot whose log holds a
single status-500 entry yields exactly what the empty log yields. -/
theorem non200_entry_never_yielded_witness :
    processQueries [] [q500] = processQueries [] [] :=
  non200_entry_never_yielded [] [] [] q500 500 rfl (by decide)

/-! ### C6: an unparsable resource file is skipped without side effects -/

/-- The count map produced by `processFiles` does not depend on the running
`base_uri` value. -/
theorem processFiles_snd_base (ys : List Yield) (uniques : Uniques)
    (b₁ b₂ : Option String) :
    (processFiles ys uniques b₁).map Prod.snd = (processFiles ys uniques b₂).map Prod.snd := by
  induction ys generalizing uniques b₁ b₂ with
  | nil => rfl
  | cons y rest ih =>
    obtain ⟨t, file, uri⟩ := y
    simp only [processFiles]
    by_cases hd : t = "PATIENT_DEMOGRAPHICS"
    · rw [if_pos hd, if_pos hd]; exact ih _ _ _
    · rw [if_neg hd, if_neg hd]
      cases file with
      | none => rfl
      | some fc =>
        cases fc with
        | invalid => exact ih _ _ _
        | nonObject => rfl
        | parsed d =>
          cases h : entriesIds t (d.entry.getD []) with
          | error u => simp only [h]
          | ok ids => simp only [h]; exact ih _ _ _

/-- C6: a resource file the JSON parser rejects contributes nothing to any
count and leaves every other yielded file of the snapshot contributing its
own count unchanged: the final count map is the one of the run without the
unparsable file, so the patient keeps its entries for all other resource
types. -/
theorem invalid_file_skipped (l₁ l₂ : List Yield) (t uri : String)
    (uniques : Uniques) (base : Option String) :
    (processFiles (l₁ ++ (t, some .invalid, uri) :: l₂) uniques base).map Prod.snd
      = (processFiles (l₁ ++ l₂) uniques base).map Prod.snd := by
  induction l₁ generalizing uniques base with
  | nil =>
    simp only [List.nil_append, processFiles]
    by_cases hd : t = "PATIENT_DEMOGRAPHICS"
    · rw [if_pos hd]; exact processFiles_snd_base _ _ _ _
    · rw [if_neg hd]; exact processFiles_snd_base _ _ _ _
  | cons y rest ih =>
    obtain ⟨t', file', uri'⟩ := y
    simp only [List.cons_append, processFiles]
    by_cases hd : t' = "PATIENT_DEMOGRAPHICS"
    · rw [if_pos hd, if_pos hd]; exact ih _ _
    · rw [if_neg hd, if_neg hd]
      cases file' with
      | none => rfl
      | some fc =>
        cases fc with
        | invalid => exact ih _ _
        | nonObject => rfl
        | parsed d =>
          cases h : entriesIds t' (d.entry.getD []) with
          | error u => simp only [h]
          | ok ids => simp only [h]; exact ih _ _

/-! ### C1: counts are keyed by file type, not by canonical resource type -/

/-- C1 (amended): `process_directory` keys its output by the file-derived
resource type, not by the canonical resource type.  Two files of the same
file type have their identifier sets unioned before taking cardinality; two
files of distinct file types that canonicalize to the same canonical resource
type (such as `LAB` and `VITAL`, both mapping to `Observation`) produce two
separate entries, each counting its own identifier set, so a record id
present in both contributes to both entries and no entry is keyed by the
canonical resource type. -/
theorem counts_keyed_by_file_type (t₁ t₂ u₁ u₂ : String) (d₁ d₂ : Document)
    (ids₁ ids₂ : List String)
    (h₁ : entriesIds t₁ (d₁.entry.getD []) = .ok ids₁)
    (h₂ : entriesIds t₂ (d₂.entry.getD []) = .ok ids₂)
    (hd₁ : t₁ ≠ "PATIENT_DEMOGRAPHICS") (hd₂ : t₂ ≠ "PATIENT_DEMOGRAPHICS")
    (_hc : lookupType t₁ = lookupType t₂) :
    (processFiles [(t₁, some (.parsed d₁), u₁), (t₂, some (.parsed d₂), u₂)] [] none).map
        Prod.snd
      = if t₁ = t₂ then .ok [(t₁, (ids₁.toFinset ∪ ids₂.toFinset).card)]
        else .ok [(t₁, ids₁.toFinset.card), (t₂, ids₂.toFinset.card)] := by
  simp only [processFiles, if_neg hd₁, if_neg hd₂, h₁, h₂]
  by_cases h : t₁ = t₂
  · subst h
    simp [updateUniques, Except.map]
  · simp [updateUniques, h, Except.map]

/-- Witness for `counts_keyed_by_file_type` at a `LAB` file and a `VITAL`
file both holding the single Observation id `x`. -/
theorem counts_keyed_by_file_type_witness :
    (processFiles [("LAB", some (.parsed ⟨some [obsEntry "x"]⟩), "http://srv/"),
                   ("VITAL", some (.parsed ⟨some [obsEntry "x"]⟩), "http://srv/")] [] none).map
        Prod.snd
      = if "LAB" = "VITAL" then .ok [("LAB", (["x"].toFinset ∪ ["x"].toFinset).card)]
        else .ok [("LAB", ["x"].toFinset.card), ("VITAL", ["x"].toFinset.card)] :=
  counts_keyed_by_file_type "LAB" "VITAL" "http://srv/" "http://srv/"
    ⟨some [obsEntry "x"]⟩ ⟨some [obsEntry "x"]⟩ ["x"] ["x"] rfl rfl
    (by decide) (by decide) rfl

/-- C1 (counterexample): a snapshot holding a `LAB` file and a `VITAL` file
that share the record id `x` produces the per-patient counts
`LAB 1, VITAL 1`; there is no entry keyed by the canonical resource type
`Observation`, contradicting the claim that the output is keyed by canonical
resource type with a union-based count. -/
theorem counts_keyed_by_file_type_counterexample :
    (processDirectory [labVitalSnap]).map Prod.snd = .ok [("LAB", 1), ("VITAL", 1)]
    ∧ List.lookup "Observation" [("LAB", 1), ("VITAL", 1)] = none :=
  ⟨rfl, rfl⟩

/-! ### C2: there is no snapshot selection; every snapshot is read -/

/-- C2 (amended): `find_resource_files` performs no timestamp-based snapshot
selection: it yields the resource files of every snapshot subdirectory whose
processing does not crash, in listing order, so every snapshot of a patient
contributes its files to the patient counts. -/
theorem every_snapshot_contributes (dir : List Snapshot)
    (h : ∀ snap ∈ dir, (snapshotYields snap).2 = false) :
    findResourceFiles dir = .ok (dir.flatMap (fun snap => (snapshotYields snap).1)) := by
  induction dir with
  | nil => rfl
  | cons snap rest ih =>
    have hs : (snapshotYields snap).2 = false := h snap (List.mem_cons_self snap rest)
    have hr : ∀ s ∈ rest, (snapshotYields s).2 = false :=
      fun s hsm => h s (List.mem_cons_of_mem snap hsm)
    simp [findResourceFiles, hs, ih hr, Except.map]

/-- Witness for `every_snapshot_contributes`: two snapshots whose manifests
carry the timestamps 100 and 200; the yields of both are produced. -/
theorem every_snapshot_contributes_witness :
    findResourceFiles [immunSnap (some 100) "a", immunSnap (some 200) "b"]
      = .ok ([immunSnap (some 100) "a", immunSnap (some 200) "b"].flatMap
          (fun snap => (snapshotYields snap).1)) :=
  every_snapshot_contributes [immunSnap (some 100) "a", immunSnap (some 200) "b"]
    (by intro snap hsnap; fin_cases hsnap <;> rfl)

/-- C2 (counterexample): a patient directory with two snapshot subdirectories
whose manifests carry the timestamps 100 and 200 and whose `IMMUNIZATION`
bundles hold the distinct ids `a` and `b` produces the count 2: the file of
the timestamp-100 snapshot is read and counted, whereas processing only the
timestamp-200 snapshot produces the count 1, so extraction does not read
files only from the snapshot with the maximal timestamp. -/
theorem snapshot_selection_counterexample :
    (processDirectory [immunSnap (some 100) "a", immunSnap (some 200) "b"]).map Prod.snd
        = .ok [("IMMUNIZATION", 2)]
    ∧ (processDirectory [immunSnap (some 200) "b"]).map Prod.snd
        = .ok [("IMMUNIZATION", 1)]
    ∧ ¬ ((Except.ok [("IMMUNIZATION", 2)] : Except Unit CountMap)
          = .ok [("IMMUNIZATION", 1)]) :=
  ⟨rfl, rfl, by simp⟩

/-! ### C5: entries of foreign type are excluded, but a matching entry without
an id raises -/

/-- If any entry of a bundle makes the id generator raise, the whole
generator raises. -/
theorem entriesIds_error_of_mem (t : String) (es : List Entry) (e : Entry)
    (he : e ∈ es) (hc : entryContrib t e = .error ()) :
    entriesIds t es = .error () := by
  induction es with
  | nil => cases he
  | cons e' rest ih =>
    rcases List.mem_cons.mp he with rfl | hmem
    · simp only [entriesIds, hc]
    · simp only [entriesIds]
      cases h : entryContrib t e' with
      | error u => rfl
      | ok o =>
        cases o with
        | none => exact ih hmem
        | some i => rw [ih hmem]; rfl

/-- If the id generator of one yielded file raises, `process_directory`
raises, whatever the surrounding yields and accumulator state. -/
theorem processFiles_error_of_file (l₁ l₂ : List Yield) (t uri : String)
    (d : Document) (hd : t ≠ "PATIENT_DEMOGRAPHICS")
    (hids : entriesIds t (d.entry.getD []) = .error ())
    (uniques : Uniques) (base : Option String) :
    processFiles (l₁ ++ (t, some (.parsed d), uri) :: l₂) uniques base = .error () := by
  induction l₁ generalizing uniques base with
  | nil =>
    simp only [List.nil_append, processFiles, if_neg hd, hids]
  | cons y rest ih =>
    obtain ⟨t', file', uri'⟩ := y
    simp only [List.cons_append, processFiles]
    by_cases hd' : t' = "PATIENT_DEMOGRAPHICS"
    · rw [if_pos hd']; exact ih _ _
    · rw [if_neg hd']
      cases file' with
      | none => rfl
      | some fc =>
        cases fc with
        | invalid => exact ih _ _
        | nonObject => rfl
        | parsed d' =>
          cases h : entriesIds t' (d'.entry.getD []) with
          | error u => simp only [h]
          | ok ids => simp only [h]; exact ih _ _

/-- C5 (amended): in a bundle-shaped file, an entry whose wrapped resource
carries a `resourceType` different from the canonical resource type of the
file (for example an operation-outcome entry) is excluded from identity
counting and raises no error; but an entry whose resource matches the
canonical resource type and lacks an `id` field raises an uncaught `KeyError`
that escapes the Resource Extractor boundary and aborts the whole run. -/
theorem missing_id_escapes_extractor (l₁ l₂ : List Yield) (t uri : String)
    (d : Document) (canonical : String) (e : Entry) (r : Resource)
    (r' : Resource) (rt' : String)
    (hcan : lookupType t = some canonical)
    (hd : t ≠ "PATIENT_DEMOGRAPHICS")
    (he : e ∈ d.entry.getD []) (her : e.resource = some r)
    (hrt : r.resourceType = some canonical) (hid : r.id = none)
    (hrt' : r'.resourceType = some rt') (hne' : rt' ≠ canonical)
    (uniques : Uniques) (base : Option String) :
    processFiles (l₁ ++ (t, some (.parsed d), uri) :: l₂) uniques base = .error ()
    ∧ entryContrib t ⟨some r'⟩ = .ok none := by
  constructor
  · apply processFiles_error_of_file l₁ l₂ t uri d hd _ uniques base
    apply entriesIds_error_of_mem t _ e he
    simp [entryContrib, her, hrt, hcan, hid]
  · simp only [entryContrib, hrt', hcan, if_neg hne']

/-- Witness for `missing_id_escapes_extractor`: the `LAB` file of `noIdSnap`
holds an Observation entry without id; an OperationOutcome resource is
excluded without error. -/
theorem missing_id_escapes_extractor_witness :
    processFiles ([] ++ ("LAB", some (.parsed ⟨some [⟨some ⟨some "Observation", none⟩⟩]⟩),
        "http://srv/") :: []) [] none = .error ()
    ∧ entryContrib "LAB" ⟨some ⟨some "OperationOutcome", some "o1"⟩⟩ = .ok none :=
  missing_id_escapes_extractor [] [] "LAB" "http://srv/"
    ⟨some [⟨some ⟨some "Observation", none⟩⟩]⟩ "Observation"
    ⟨some ⟨some "Observation", none⟩⟩ ⟨some "Observation", none⟩
    ⟨some "OperationOutcome", some "o1"⟩ "OperationOutcome"
    rfl (by decide) (by decide) rfl rfl rfl rfl (by decide) [] none

/-- C5 (counterexample): processing a snapshot whose `LAB` file holds an
entry matching the canonical type `Observation` but lacking an `id` field
makes `process_directory` raise (uncaught `KeyError`), contradicting the
claim that such a file is absorbed locally and never raises past the
Resource Extractor boundary. -/
theorem missing_id_escapes_extractor_counterexample :
    processDirectory [noIdSnap] = .error () := rfl

/-! ### C10: a parsed file with no matching ids produces an explicit zero -/

theorem lookup_map_card (uniques : Uniques) (t : String) :
    List.lookup t (uniques.map (fun p => (p.1, p.2.card)))
      = (List.lookup t uniques).map Finset.card := by
  induction uniques with
  | nil => rfl
  | cons p rest ih =>
    obtain ⟨k, v⟩ := p
    by_cases h : t = k
    · have hb : (t == k) = true := beq_iff_eq.mpr h
      simp [List.lookup, hb]
    · have hb : (t == k) = false := beq_eq_false_iff_ne.mpr h
      simp [List.lookup, hb, ih]

theorem updateUniques_lookup_ne (uniques : Uniques) (k t : String) (s : Finset String)
    (h : k ≠ t) :
    List.lookup t (updateUniques uniques k s) = List.lookup t uniques := by
  have hb : (t == k) = false := beq_eq_false_iff_ne.mpr (Ne.symm h)
  induction uniques with
  | nil => simp [updateUniques, List.lookup, hb]
  | cons p rest ih =>
    obtain ⟨k', v⟩ := p
    by_cases hk : k' = k
    · subst hk
      simp [updateUniques, List.lookup, hb]
    · by_cases ht : t = k'
      · have hb' : (t == k') = true := beq_iff_eq.mpr ht
        simp [updateUniques, List.lookup, hk, hb']
      · have hb' : (t == k') = false := beq_eq_false_iff_ne.mpr ht
        simp [updateUniques, List.lookup, hk, hb', ih]

theorem updateUniques_lookup_self (uniques : Uniques) (t : String) (s : Finset String) :
    List.lookup t (updateUniques uniques t s)
      = some (((List.lookup t uniques).getD ∅) ∪ s) := by
  induction uniques with
  | nil => simp [updateUniques, List.lookup]
  | cons p rest ih =>
    obtain ⟨k', v⟩ := p
    by_cases h : k' = t
    · subst h; simp [updateUniques, List.lookup]
    · have hb : (t == k') = false := beq_eq_false_iff_ne.mpr (Ne.symm h)
      simp [updateUniques, List.lookup, h, hb, ih]

/-- Processing yields none of which has type `t` leaves the count of `t`
exactly the cardinality of its id set in the accumulator. -/
theorem processFiles_lookup_of_ne (ys : List Yield) (t : String)
    (h : ∀ y ∈ ys, y.1 ≠ t) :
    ∀ uniques base b m, processFiles ys uniques base = .ok (b, m) →
      List.lookup t m = (List.lookup t uniques).map Finset.card := by
  induction ys with
  | nil =>
    intro uniques base b m hp
    simp only [processFiles] at hp
    injection hp with h1
    injection h1 with hb hm
    subst hb; subst hm
    exact lookup_map_card uniques t
  | cons y rest ih =>
    intro uniques base b m hp
    obtain ⟨t', file', uri'⟩ := y
    have hne : t' ≠ t := h (t', file', uri') (List.mem_cons_self _ _)
    have hrest : ∀ y ∈ rest, y.1 ≠ t := fun y hy => h y (List.mem_cons_of_mem _ hy)
    simp only [processFiles] at hp
    by_cases hd : t' = "PATIENT_DEMOGRAPHICS"
    · rw [if_pos hd] at hp
      exact ih hrest _ _ _ _ hp
    · rw [if_neg hd] at hp
      cases file' with
      | none => simp at hp
      | some fc =>
        cases fc with
        | invalid => exact ih hrest _ _ _ _ hp
        | nonObject => simp at hp
        | parsed d' =>
          cases hcall : entriesIds t' (d'.entry.getD []) with
          | error u => simp only [hcall] at hp; simp at hp
          | ok ids =>
            simp only [hcall] at hp
            rw [ih hrest _ _ _ _ hp, updateUniques_lookup_ne _ _ _ _ hne]

/-- A parsed file of type `t` whose id generator succeeds with the empty list
makes the final count map carry an explicit `t = 0` entry whenever no other
yield has type `t`. -/
theorem processFiles_zero_count (l₁ l₂ : List Yield) (t uri : String) (d : Document)
    (hd : t ≠ "PATIENT_DEMOGRAPHICS")
    (hids : entriesIds t (d.entry.getD []) = .ok [])
    (h₁ : ∀ y ∈ l₁, y.1 ≠ t) (h₂ : ∀ y ∈ l₂, y.1 ≠ t) :
    ∀ uniques base, List.lookup t uniques = none →
      ∀ b m, processFiles (l₁ ++ (t, some (.parsed d), uri) :: l₂) uniques base = .ok (b, m) →
        List.lookup t m = some 0 := by
  induction l₁ with
  | nil =>
    intro uniques base hu b m hp
    simp only [List.nil_append, processFiles, if_neg hd, hids] at hp
    have hm := processFiles_lookup_of_ne l₂ t h₂ _ _ _ _ hp
    rw [updateUniques_lookup_self, hu] at hm
    simpa using hm
  | cons y rest ih =>
    intro uniques base hu b m hp
    obtain ⟨t', file', uri'⟩ := y
    have hne : t' ≠ t := h₁ (t', file', uri') (List.mem_cons_self _ _)
    have hrest : ∀ y ∈ rest, y.1 ≠ t := fun y hy => h₁ y (List.mem_cons_of_mem _ hy)
    simp only [List.cons_append, processFiles] at hp
    by_cases hdd : t' = "PATIENT_DEMOGRAPHICS"
    · rw [if_pos hdd] at hp
      exact ih hrest _ _ hu _ _ hp
    · rw [if_neg hdd] at hp
      cases file' with
      | none => simp at hp
      | some fc =>
        cases fc with
        | invalid => exact ih hrest _ _ hu _ _ hp
        | nonObject => simp at hp
        | parsed d' =>
          cases hcall : entriesIds t' (d'.entry.getD []) with
          | error u => simp only [hcall] at hp; simp at hp
          | ok ids =>
            simp only [hcall] at hp
            refine ih hrest _ _ ?_ _ _ hp
            rw [updateUniques_lookup_ne _ _ _ _ hne]
            exact hu

theorem appendCount_lookup_self (colls : List (String × List Nat)) (t : String) (c : Nat) :
    List.lookup t (appendCount colls t c)
      = some (((List.lookup t colls).getD []) ++ [c]) := by
  induction colls with
  | nil => simp [appendCount, List.lookup]
  | cons p rest ih =>
    obtain ⟨t', l⟩ := p
    by_cases h : t' = t
    · subst h; simp [appendCount, List.lookup]
    · have hb : (t == t') = false := beq_eq_false_iff_ne.mpr (Ne.symm h)
      simp [appendCount, List.lookup, h, hb, ih]

theorem appendCount_lookup_ne (colls : List (String × List Nat)) (t' t : String) (c : Nat)
    (h : t' ≠ t) :
    List.lookup t (appendCount colls t' c) = List.lookup t colls := by
  have hb : (t == t') = false := beq_eq_false_iff_ne.mpr (Ne.symm h)
  induction colls with
  | nil => simp [appendCount, List.lookup, hb]
  | cons p rest ih =>
    obtain ⟨t'', l⟩ := p
    by_cases hk : t'' = t'
    · subst hk
      simp [appendCount, List.lookup, hb]
    · by_cases ht : t = t''
      · have hb' : (t == t'') = true := beq_iff_eq.mpr ht
        simp [appendCount, List.lookup, hk, hb']
      · have hb' : (t == t'') = false := beq_eq_false_iff_ne.mpr ht
        simp [appendCount, List.lookup, hk, hb', ih]

theorem updateTotals1_lookup_self (totals : Totals) (b : Option String)
    (t' : String) (c : Nat) :
    List.lookup b (updateTotals1 totals b t' c)
      = some (appendCount ((List.lookup b totals).getD []) t' c) := by
  induction totals with
  | nil => simp [updateTotals1, List.lookup, appendCount]
  | cons p rest ih =>
    obtain ⟨b', colls⟩ := p
    by_cases h : b' = b
    · subst h; simp [updateTotals1, List.lookup]
    · have hb : (b == b') = false := beq_eq_false_iff_ne.mpr (Ne.symm h)
      simp [updateTotals1, List.lookup, h, hb, ih]

/-- Appending one more count under the same base URI keeps a zero already
present in the collection of type `t`. -/
theorem updateTotals1_keeps_zero (totals : Totals) (b : Option String)
    (t t'' : String) (c : Nat)
    (h : 0 ∈ ((List.lookup b totals).bind (fun colls => List.lookup t colls)).getD []) :
    0 ∈ ((List.lookup b (updateTotals1 totals b t'' c)).bind
          (fun colls => List.lookup t colls)).getD [] := by
  rw [updateTotals1_lookup_self]
  cases hl : List.lookup b totals with
  | none => rw [hl] at h; simp at h
  | some colls =>
    rw [hl] at h
    simp only [Option.getD_some, Option.some_bind] at h ⊢
    by_cases ht : t'' = t
    · subst ht
      rw [appendCount_lookup_self]
      cases hc : List.lookup t'' colls with
      | none => rw [hc] at h; simp at h
      | some cl =>
        rw [hc] at h
        simp only [Option.getD_some] at h ⊢
        exact List.mem_append.mpr (Or.inl h)
    · rw [appendCount_lookup_ne _ _ _ _ ht]
      exact h

/-- Appending the count 0 of type `t` makes a zero present in the collection
of type `t` under the patient base URI. -/
theorem updateTotals1_sets_zero (totals : Totals) (b : Option String) (t : String) :
    0 ∈ ((List.lookup b (updateTotals1 totals b t 0)).bind
          (fun colls => List.lookup t colls)).getD [] := by
  rw [updateTotals1_lookup_self]
  simp only [Option.some_bind]
  rw [appendCount_lookup_self]
  simp

/-- The per-patient append loop of `main` keeps a zero already present. -/
theorem addPatient_keeps_zero (items : CountMap) (totals : Totals) (b : Option String)
    (t : String)
    (h : 0 ∈ ((List.lookup b totals).bind (fun colls => List.lookup t colls)).getD []) :
    0 ∈ ((List.lookup b (addPatient totals b items)).bind
          (fun colls => List.lookup t colls)).getD [] := by
  induction items generalizing totals with
  | nil => exact h
  | cons p rest ih =>
    simp only [addPatient, List.foldl_cons] at *
    exact ih _ (updateTotals1_keeps_zero totals b t p.1 p.2 h)

/-- If the per-patient count map carries `t = 0`, the aggregated totals carry
a zero in the collection of type `t` under the patient base URI. -/
theorem addPatient_zero_mem (m : CountMap) (b : Option String) (t : String)
    (hm : List.lookup t m = some 0) :
    ∀ totals, 0 ∈ ((List.lookup b (addPatient totals b m)).bind
          (fun colls => List.lookup t colls)).getD [] := by
  induction m with
  | nil => simp [List.lookup] at hm
  | cons p rest ih =>
    intro totals
    obtain ⟨t', c⟩ := p
    by_cases h : t = t'
    · have hb : (t == t') = true := beq_iff_eq.mpr h
      simp only [List.lookup, hb] at hm
      injection hm with hc
      subst h; subst hc
      simp only [addPatient, List.foldl_cons]
      exact addPatient_keeps_zero rest _ _ _ (updateTotals1_sets_zero totals b t)
    · have hb : (t == t') = false := beq_eq_false_iff_ne.mpr h
      simp only [List.lookup, hb] at hm
      simp only [addPatient, List.foldl_cons]
      exact ih hm _

/-- C10: a resource file that parses as JSON but yields no matching
identifiers (in particular a document with no `entry` key, for which
`d.entry.getD []` is the empty sequence) produces an explicit count of 0 for
its file type in the per-patient output of `process_directory`, and `main`
appends that 0 to the CountCollection of the type under the patient base URI:
the patient is present with value zero rather than absent. -/
theorem empty_file_counts_zero (l₁ l₂ : List Yield) (t uri : String) (d : Document)
    (b : Option String) (m : CountMap)
    (hd : t ≠ "PATIENT_DEMOGRAPHICS")
    (hids : entriesIds t (d.entry.getD []) = .ok [])
    (h₁ : ∀ y ∈ l₁, y.1 ≠ t) (h₂ : ∀ y ∈ l₂, y.1 ≠ t)
    (hp : processFiles (l₁ ++ (t, some (.parsed d), uri) :: l₂) [] none = .ok (b, m)) :
    List.lookup t m = some 0
    ∧ 0 ∈ ((List.lookup b (addPatient [] b m)).bind
          (fun colls => List.lookup t colls)).getD [] := by
  have hz := processFiles_zero_count l₁ l₂ t uri d hd hids h₁ h₂ [] none rfl b m hp
  exact ⟨hz, addPatient_zero_mem m b t hz []⟩

/-- Witness for `empty_file_counts_zero`: a `LAB` file with no `entry` key
produces the count map `LAB = 0` and the zero lands in the aggregated
collection. -/
theorem empty_file_counts_zero_witness :
    List.lookup "LAB" [("LAB", 0)] = some 0
    ∧ 0 ∈ ((List.lookup (some "http://srv/")
            (addPatient [] (some "http://srv/") [("LAB", 0)])).bind
          (fun colls => List.lookup "LAB" colls)).getD [] :=
  empty_file_counts_zero [] [] "LAB" "http://srv/" ⟨none⟩ (some "http://srv/")
    [("LAB", 0)] (by decide) rfl (by simp) (by simp) rfl

/-! ### Sorted-list facts used by the statistics claims -/

theorem le_getLastD_of_sorted : ∀ (s : List Nat), List.Sorted (· ≤ ·) s →
    ∀ x ∈ s, ∀ d, x ≤ s.getLastD d := by
  intro s
  induction s with
  | nil => intro _ x hx; cases hx
  | cons a rest ih =>
    intro hs x hx d
    rw [List.getLastD_cons]
    rcases List.mem_cons.mp hx with rfl | hxr
    · cases rest with
      | nil => simp [List.getLastD]
      | cons b rs =>
        have hab : x ≤ b := (List.sorted_cons.mp hs).1 b (List.mem_cons_self b rs)
        have hbl : b ≤ (b :: rs).getLastD x :=
          ih (List.sorted_cons.mp hs).2 b (List.mem_cons_self b rs) x
        exact le_trans hab hbl
    · exact ih (List.sorted_cons.mp hs).2 x hxr a

theorem getLastD_mem : ∀ (s : List Nat), s ≠ [] → ∀ d, s.getLastD d ∈ s := by
  intro s
  induction s with
  | nil => intro h; exact absurd rfl h
  | cons a rest ih =>
    intro _ d
    rw [List.getLastD_cons]
    cases rest with
    | nil => simp [List.getLastD]
    | cons b rs => exact List.mem_cons_of_mem a (ih (by simp) a)

/-- The bin index `B = mx / w` of the maximum value: its bin brackets the
maximum and is non-empty. -/
theorem bin_bound_facts (s : List Nat) (w mx : Int) (B : Nat)
    (hw : 0 < w) (hsne : s ≠ [])
    (hmx : mx = ((s.getLastD 0 : Nat) : Int)) (hB : B = mx.toNat / w.toNat) :
    (B : Int) * w ≤ mx ∧ mx < ((B : Int) + 1) * w ∧ inBin s w B ≠ 0 := by
  have hwn : ((w.toNat : Nat) : Int) = w := Int.toNat_of_nonneg (le_of_lt hw)
  have hwnpos : 0 < w.toNat := by
    have : (0 : Int) < ((w.toNat : Nat) : Int) := by rw [hwn]; exact hw
    exact_mod_cast this
  have hmxtn : mx.toNat = s.getLastD 0 := by rw [hmx]; simp
  have h1n : B * w.toNat ≤ s.getLastD 0 := by
    rw [hB, hmxtn]; exact Nat.div_mul_le_self _ _
  have h2n : s.getLastD 0 < (B + 1) * w.toNat := by
    rw [hB, hmxtn]
    have hm : s.getLastD 0 % w.toNat < w.toNat := Nat.mod_lt _ hwnpos
    calc s.getLastD 0
        = w.toNat * (s.getLastD 0 / w.toNat) + s.getLastD 0 % w.toNat :=
          (Nat.div_add_mod (s.getLastD 0) w.toNat).symm
      _ < w.toNat * (s.getLastD 0 / w.toNat) + w.toNat := Nat.add_lt_add_left hm _
      _ = (s.getLastD 0 / w.toNat + 1) * w.toNat := by ring
  have h1 : (B : Int) * w ≤ mx := by
    rw [hmx, ← hwn]; exact_mod_cast h1n
  have h2 : mx < ((B : Int) + 1) * w := by
    rw [hmx, ← hwn]; exact_mod_cast h2n
  refine ⟨h1, h2, ?_⟩
  intro hzero
  have hmem : s.getLastD 0 ∈ s := getLastD_mem s hsne 0
  have hfil : s.getLastD 0 ∈ s.filter (fun (x : Nat) =>
      decide ((B : Int) * w ≤ (x : Int)) && decide ((x : Int) < ((B : Int) + 1) * w)) := by
    apply List.mem_filter.mpr
    refine ⟨hmem, ?_⟩
    simp only [Bool.and_eq_true, decide_eq_true_eq]
    exact ⟨by rw [← hmx]; exact h1, by rw [← hmx]; exact h2⟩
  unfold inBin at hzero
  rw [List.length_eq_zero] at hzero
  rw [hzero] at hfil
  cases hfil

/-! ### The histogram loop -/

/-- With the fuel bound `B + 1 - b` the `while True` loop runs to its break:
starting at bin `b ≤ B` it emits exactly the non-empty bins of indices
`b .. B` and stops at bin `B`, the bin of the maximum value. -/
theorem histLoop_run (counts : List Nat) (w mx : Int) (B : Nat)
    (hw : 0 < w) (hB1 : (B : Int) * w ≤ mx) (hB2 : mx < ((B : Int) + 1) * w)
    (hne : inBin counts w B ≠ 0) :
    ∀ fuel b acc, b ≤ B → B - b < fuel →
      histLoop counts w mx fuel b acc = some (acc ++ binsIn counts w b (B + 1 - b)) := by
  intro fuel
  induction fuel with
  | zero => intro b acc _ hf; exact absurd hf (by omega)
  | succ f ih =>
    intro b acc hb hf
    by_cases hbB : b = B
    · subst hbB
      have h1 : b + 1 - b = 1 := by omega
      simp only [histLoop, if_neg hne, h1]
      rw [if_pos hB2]
      simp [binsIn, hne]
    · have hblt : b < B := lt_of_le_of_ne hb hbB
      have hle : ((b : Int) + 1) * w ≤ mx := by
        have hc : ((b : Int) + 1) ≤ (B : Int) := by exact_mod_cast hblt
        exact le_trans (mul_le_mul_of_nonneg_right hc (le_of_lt hw)) hB1
      have hk : B + 1 - b = (B + 1 - (b + 1)) + 1 := by omega
      by_cases h0 : inBin counts w b = 0
      · simp only [histLoop, if_pos h0]
        rw [ih (b + 1) acc (by omega) (by omega), hk]
        simp [binsIn, h0]
      · simp only [histLoop, if_neg h0]
        rw [if_neg (not_lt.mpr hle)]
        rw [ih (b + 1) _ (by omega) (by omega), hk]
        simp [binsIn, h0]

/-- One unfolding step of `binsIn`. -/
theorem binsIn_succ (counts : List Nat) (w : Int) (lo k : Nat) :
    binsIn counts w lo (k + 1)
      = (if inBin counts w lo = 0 then []
         else [⟨(lo : Int) * w, ((lo : Int) + 1) * w - 1, inBin counts w lo⟩])
          ++ binsIn counts w (lo + 1) k := rfl

theorem mem_binsIn (counts : List Nat) (w : Int) :
    ∀ (k lo : Nat) (bin : Bin), bin ∈ binsIn counts w lo k →
      ∃ j, j < k ∧ inBin counts w (lo + j) ≠ 0 ∧
        bin = ⟨((lo + j : Nat) : Int) * w, (((lo + j : Nat) : Int) + 1) * w - 1,
               inBin counts w (lo + j)⟩ := by
  intro k
  induction k with
  | zero => intro lo bin h; simp [binsIn] at h
  | succ k ih =>
    intro lo bin h
    simp only [binsIn] at h
    rcases List.mem_append.mp h with h1 | h2
    · by_cases h0 : inBin counts w lo = 0
      · rw [if_pos h0] at h1; cases h1
      · rw [if_neg h0] at h1
        simp only [List.mem_singleton] at h1
        exact ⟨0, by omega, by simpa using h0, by simpa using h1⟩
    · obtain ⟨j, hj, hne, hbin⟩ := ih (lo + 1) bin h2
      refine ⟨j + 1, by omega, ?_, ?_⟩
      · rw [show lo + (j + 1) = lo + 1 + j from by omega]; exact hne
      · rw [show lo + (j + 1) = lo + 1 + j from by omega]; exact hbin

theorem binsIn_getLast (counts : List Nat) (w : Int) :
    ∀ (k lo : Nat), inBin counts w (lo + k) ≠ 0 →
      (binsIn counts w lo (k + 1)).getLast?
        = some ⟨((lo + k : Nat) : Int) * w, (((lo + k : Nat) : Int) + 1) * w - 1,
                inBin counts w (lo + k)⟩ := by
  intro k
  induction k with
  | zero =>
    intro lo h
    simp only [Nat.add_zero] at h ⊢
    simp [binsIn, h]
  | succ k ih =>
    intro lo h
    have h' : inBin counts w (lo + 1 + k) ≠ 0 := by
      rw [show lo + 1 + k = lo + (k + 1) from by omega]; exact h
    have hrec := ih (lo + 1) h'
    rw [binsIn_succ, List.getLast?_append, hrec]
    simp [show lo + 1 + k = lo + (k + 1) from by omega]

theorem binsIn_eq_filterMap (counts : List Nat) (w : Int) :
    ∀ (k lo : Nat), binsIn counts w lo k
      = (List.range' lo k).filterMap (fun bn =>
          if inBin counts w bn = 0 then none
          else some ⟨(bn : Int) * w, ((bn : Int) + 1) * w - 1, inBin counts w bn⟩) := by
  intro k
  induction k with
  | zero => intro lo; simp [binsIn]
  | succ k ih =>
    intro lo
    rw [List.range'_succ, binsIn_succ]
    simp only [List.filterMap_cons]
    by_cases h0 : inBin counts w lo = 0
    · simp [h0, ih]
    · simp [h0, ih]

/-! ### C4: the positional median -/

/-- C4: for a non-empty collection the reported median is the element at
index `n / 2` (floor) of the values sorted ascending; in particular for a
two-element collection it is the upper-middle element, not the arithmetic
middle. -/
theorem median_is_sorted_middle (counts sorted : List Nat) (w : Int) (fuel : Nat)
    (smry : Summary)
    (h : summarize counts w fuel = some smry)
    (hperm : sorted.Perm counts) (hsort : List.Sorted (· ≤ ·) sorted) :
    smry.median = sorted.getD (counts.length / 2) 0 := by
  have heq : counts.insertionSort (· ≤ ·) = sorted :=
    List.eq_of_perm_of_sorted
      ((List.perm_insertionSort _ counts).trans hperm.symm)
      (List.sorted_insertionSort _ counts) hsort
  simp only [summarize, heq] at h
  cases hE : sorted.isEmpty with
  | true => rw [hE] at h; simp at h
  | false =>
    rw [hE] at h
    simp only [Bool.false_eq_true, if_false] at h
    cases hh : histLoop sorted w ((sorted.getLastD 0 : Nat) : Int) fuel 0 [] with
    | none => rw [hh] at h; simp at h
    | some bins =>
      rw [hh] at h
      simp only [Option.some.injEq] at h
      rw [← h]
      simp only [hperm.length_eq]

/-- Witness for `median_is_sorted_middle`: the collection `[3, 7]` has median
`7`, the element at index `2 / 2 = 1` of the sorted values, not the
arithmetic middle `5`. -/
theorem median_is_sorted_middle_witness :
    ((summarize [3, 7] 5 4).getD ⟨0, 0, 0, 0, []⟩).median
      = List.getD [3, 7] (List.length [3, 7] / 2) 0 :=
  median_is_sorted_middle [3, 7] [3, 7] 5 4
    ((summarize [3, 7] 5 4).getD ⟨0, 0, 0, 0, []⟩) rfl (List.Perm.refl _) (by decide)

/-! ### C7: the histogram loop terminates at the bin of the maximum -/

/-- C7: for a non-empty collection and positive bin width, the histogram loop
terminates with fuel `B + 1` where `B` is the bin index of the maximum value:
the loop breaks at the first emitted bin whose upper inclusive edge reaches or
exceeds the maximum, every emitted bin starts at or below the maximum (no bin
strictly above the maximum is ever emitted), and the last emitted bin has
upper inclusive edge at or above the maximum. -/
theorem histogram_terminates_within_max (counts s : List Nat) (w mx : Int) (B : Nat)
    (hs : s = counts.insertionSort (· ≤ ·))
    (hw : 0 < w) (hne : counts ≠ [])
    (hmx : mx = ((s.getLastD 0 : Nat) : Int))
    (hB : B = mx.toNat / w.toNat) :
    histLoop s w mx (B + 1) 0 [] = some (binsIn s w 0 (B + 1))
    ∧ (binsIn s w 0 (B + 1)).all (fun bin => decide (bin.bin_start ≤ mx)) = true
    ∧ (binsIn s w 0 (B + 1)).getLast?
        = some ⟨(B : Int) * w, ((B : Int) + 1) * w - 1, inBin s w B⟩
    ∧ mx ≤ ((B : Int) + 1) * w - 1 := by
  have hsne : s ≠ [] := by
    intro h0
    apply hne
    have hlen := (List.perm_insertionSort (· ≤ ·) counts).length_eq
    rw [← hs, h0] at hlen
    exact List.length_eq_zero.mp hlen.symm
  obtain ⟨h1, h2, h3⟩ := bin_bound_facts s w mx B hw hsne hmx hB
  have hrun := histLoop_run s w mx B hw h1 h2 h3 (B + 1) 0 [] (by omega) (by omega)
  simp only [Nat.sub_zero, List.nil_append] at hrun
  refine ⟨hrun, ?_, ?_, ?_⟩
  · apply List.all_eq_true.mpr
    intro bin hbin
    obtain ⟨j, hj, hjne, hbineq⟩ := mem_binsIn s w (B + 1) 0 bin hbin
    subst hbineq
    simp only [decide_eq_true_eq]
    have hjle : ((0 + j : Nat) : Int) ≤ (B : Int) := by
      have : 0 + j ≤ B := by omega
      exact_mod_cast this
    calc ((0 + j : Nat) : Int) * w
        ≤ (B : Int) * w := mul_le_mul_of_nonneg_right hjle (le_of_lt hw)
      _ ≤ mx := h1
  · have hlast := binsIn_getLast s w B 0 (by simpa using h3)
    simpa using hlast
  · have := Int.lt_iff_add_one_le.mp h2
    linarith

/-- Witness for `histogram_terminates_within_max` at the collection `[2, 11]`
with bin width 5: the loop stops after the bin of index 2 that holds the
maximum 11, and no emitted bin starts above 11. -/
theorem histogram_terminates_within_max_witness :
    histLoop [2, 11] 5 11 3 0 [] = some (binsIn [2, 11] 5 0 3)
    ∧ (binsIn [2, 11] 5 0 3).all (fun bin => decide (bin.bin_start ≤ 11)) = true
    ∧ (binsIn [2, 11] 5 0 3).getLast? = some ⟨10, 14, inBin [2, 11] 5 2⟩
    ∧ (11 : Int) ≤ 14 :=
  histogram_terminates_within_max [2, 11] [2, 11] 5 11 2 rfl (by decide) (by decide)
    rfl rfl

/-! ### C3: empty bins are always suppressed -/

/-- C3 (amended): there is no empty-bin suppression flag: the histogram
always suppresses empty bins.  For a non-empty collection and positive bin
width the emitted bins are exactly the non-empty bins among
`[b*w, (b+1)*w - 1]` for `b` from 0 through the bin containing the maximum
value; a bin in that span whose count is zero is not emitted. -/
theorem histogram_emits_exactly_nonempty_bins (counts s : List Nat) (w mx : Int) (B : Nat)
    (hs : s = counts.insertionSort (· ≤ ·))
    (hw : 0 < w) (hne : counts ≠ [])
    (hmx : mx = ((s.getLastD 0 : Nat) : Int))
    (hB : B = mx.toNat / w.toNat) :
    (summarize counts w (B + 1)).map Summary.histogram
      = some ((List.range (B + 1)).filterMap (fun bn =>
          if inBin s w bn = 0 then none
          else some ⟨(bn : Int) * w, ((bn : Int) + 1) * w - 1, inBin s w bn⟩)) := by
  have hsne : s ≠ [] := by
    intro h0
    apply hne
    have hlen := (List.perm_insertionSort (· ≤ ·) counts).length_eq
    rw [← hs, h0] at hlen
    exact List.length_eq_zero.mp hlen.symm
  obtain ⟨h1, h2, h3⟩ := bin_bound_facts s w mx B hw hsne hmx hB
  have hrun := histLoop_run s w mx B hw h1 h2 h3 (B + 1) 0 [] (by omega) (by omega)
  simp only [Nat.sub_zero, List.nil_append] at hrun
  rw [hmx] at hrun
  have hE : s.isEmpty = false := by
    cases s with
    | nil => exact absurd rfl hsne
    | cons a l => rfl
  simp only [summarize, ← hs, hE, Bool.false_eq_true, if_false, hrun]
  rw [binsIn_eq_filterMap, List.range_eq_range']
  rfl

/-- Witness for `histogram_emits_exactly_nonempty_bins` at the collection
`[2, 11]` with bin width 5. -/
theorem histogram_emits_exactly_nonempty_bins_witness :
    (summarize [2, 11] 5 3).map Summary.histogram
      = some ((List.range 3).filterMap (fun bn =>
          if inBin [2, 11] 5 bn = 0 then none
          else some ⟨(bn : Int) * 5, ((bn : Int) + 1) * 5 - 1, inBin [2, 11] 5 bn⟩)) :=
  histogram_emits_exactly_nonempty_bins [2, 11] [2, 11] 5 11 2 rfl (by decide) (by decide)
    rfl rfl

/-- C3 (counterexample): for the collection `[2, 11]` with bin width 5 the
emitted histogram is `[0,4] with count 1` and `[10,14] with count 1`: the
empty bin `[5, 9]` inside `[0, max]` is not emitted, so the bins do not fully
partition `[0, max]` and zero-count bins are suppressed even though the
claimed suppression flag is supposedly off by default (no such flag exists in
the code). -/
theorem empty_bin_suppression_counterexample :
    (summarize [2, 11] 5 3).map Summary.histogram = some [⟨0, 4, 1⟩, ⟨10, 14, 1⟩]
    ∧ (⟨5, 9, 0⟩ : Bin) ∉ [(⟨0, 4, 1⟩ : Bin), ⟨10, 14, 1⟩] :=
  ⟨rfl, by decide⟩
